import Mathlib

set_option maxHeartbeats 1000000

/-!
Shallow embedding of the scribe logging client: the connection lifecycle
manager in `scribe_logging_client.py` (class `ScribeClient`) and the thrift
call codec in `_thrift/scribe/scribe.py` (class `Client`, structs `Log_args`
and `Log_result`).

The thrift binary protocol is modelled at the level of protocol primitive
calls: a wire stream is a `List Tok` with one token per `TProtocol`
read/write primitive (`writeFieldBegin`, `writeI32`, `readListBegin`, ...).
Writers produce token lists and readers consume them, mirroring the
generated python code statement by statement.  Reader loops carry an
explicit `fuel` bound (one unit per loop iteration) so that every
definition is a computable total function.
-/

/-- Thrift field-type tag `TType.BOOL` (thrift library constant 2). -/
def TType.BOOL : Nat := 2

/-- Thrift field-type tag `TType.I32` (thrift library constant 8). -/
def TType.I32 : Nat := 8

/-- Thrift field-type tag `TType.STRING` (thrift library constant 11). -/
def TType.STRING : Nat := 11

/-- Thrift field-type tag `TType.STRUCT` (thrift library constant 12). -/
def TType.STRUCT : Nat := 12

/-- Thrift field-type tag `TType.LIST` (thrift library constant 15). -/
def TType.LIST : Nat := 15

/-- Thrift message kind `TMessageType.CALL` (thrift library constant 1). -/
def TMessageType.CALL : Nat := 1

/-- Thrift message kind `TMessageType.REPLY` (thrift library constant 2). -/
def TMessageType.REPLY : Nat := 2

/-- Thrift message kind `TMessageType.EXCEPTION` (thrift library constant 3). -/
def TMessageType.EXCEPTION : Nat := 3

/-- One token per thrift protocol primitive call.  `fieldBegin` carries the
field-type tag and the field id, `listBegin` the element-type tag and the
element count, and the value tokens carry the written value. -/
inductive Tok where
  | structBegin : Tok
  | structEnd : Tok
  | fieldBegin (ftype : Nat) (fid : Nat) : Tok
  | fieldEnd : Tok
  | fieldStop : Tok
  | listBegin (etype : Nat) (size : Nat) : Tok
  | listEnd : Tok
  | boolV (b : Bool) : Tok
  | i32V (v : Int) : Tok
  | strV (s : String) : Tok
deriving DecidableEq

/-- Selects which loop of the generic skipper runs: skip one value of a
given type tag, skip a struct field sequence up to the stop marker, or
skip `n` list elements of a given element type. -/
inductive SkipArg where
  | val (ftype : Nat) : SkipArg
  | fields : SkipArg
  | elems (etype : Nat) (n : Nat) : SkipArg

/-- Modelled from the spec: thrift's generic `TProtocol.skip` (library code,
absent from `src/`), used by the generated readers on every unknown field.
Per the struct-encoding rule of the spec, an unknown field's value is
consumed recursively: a struct is a stop-terminated field sequence, a list
is a counted element sequence, primitives are single value tokens.
`fuel` decreases on every recursive call. -/
def skipGo : Nat → SkipArg → List Tok → Option (List Tok)
  | 0, _, _ => none
  | fuel + 1, SkipArg.val t, toks =>
    if t = TType.BOOL then
      match toks with
      | Tok.boolV _ :: r => some r
      | _ => none
    else if t = TType.I32 then
      match toks with
      | Tok.i32V _ :: r => some r
      | _ => none
    else if t = TType.STRING then
      match toks with
      | Tok.strV _ :: r => some r
      | _ => none
    else if t = TType.STRUCT then
      match toks with
      | Tok.structBegin :: r => skipGo fuel SkipArg.fields r
      | _ => none
    else if t = TType.LIST then
      match toks with
      | Tok.listBegin et n :: r =>
        match skipGo fuel (SkipArg.elems et n) r with
        | some (Tok.listEnd :: r2) => some r2
        | _ => none
      | _ => none
    else none
  | fuel + 1, SkipArg.fields, toks =>
    match toks with
    | Tok.fieldStop :: Tok.structEnd :: r => some r
    | Tok.fieldBegin ft _ :: r =>
      match skipGo fuel (SkipArg.val ft) r with
      | some (Tok.fieldEnd :: r2) => skipGo fuel SkipArg.fields r2
      | _ => none
    | _ => none
  | fuel + 1, SkipArg.elems et n, toks =>
    match n with
    | 0 => some toks
    | m + 1 =>
      match skipGo fuel (SkipArg.val et) toks with
      | some r => skipGo fuel (SkipArg.elems et m) r
      | none => none

/-- Skip one field value of the given type tag (entry point used by the
generated readers, `iprot.skip(ftype)`). -/
def skipVal (fuel : Nat) (ftype : Nat) (toks : List Tok) : Option (List Tok) :=
  skipGo fuel (SkipArg.val ftype) toks

/-- Modelled from the spec: `ttypes.LogEntry` (generated thrift struct whose
source file is absent from `src/`): field id 1 `category : string`, field
id 2 `message : string`, both optional-by-omission. -/
structure LogEntry where
  category : Option String
  message : Option String
deriving DecidableEq

/-- Modelled from the spec: `LogEntry.write`.  Present fields are written as
`(field id, type tag, value)` entries, absent (`None`) fields are omitted
entirely, then the stop marker terminates the struct. -/
def LogEntry.write (e : LogEntry) : List Tok :=
  Tok.structBegin ::
    ((match e.category with
      | some c => [Tok.fieldBegin TType.STRING 1, Tok.strV c, Tok.fieldEnd]
      | none => []) ++
     ((match e.message with
       | some m => [Tok.fieldBegin TType.STRING 2, Tok.strV m, Tok.fieldEnd]
       | none => []) ++
      [Tok.fieldStop, Tok.structEnd]))

/-- Modelled from the spec: the field loop of `LogEntry.read`: read field
headers until the stop marker; field id 1 of string type sets `category`,
field id 2 of string type sets `message`, anything else is skipped. -/
def LogEntry.readFields : Nat → LogEntry → List Tok → Option (LogEntry × List Tok)
  | 0, _, _ => none
  | fuel + 1, acc, toks =>
    match toks with
    | Tok.fieldStop :: Tok.structEnd :: r => some (acc, r)
    | Tok.fieldBegin ft fid :: r =>
      if fid = 1 then
        if ft = TType.STRING then
          match r with
          | Tok.strV s :: Tok.fieldEnd :: r2 =>
            LogEntry.readFields fuel { acc with category := some s } r2
          | _ => none
        else
          match skipVal fuel ft r with
          | some (Tok.fieldEnd :: r2) => LogEntry.readFields fuel acc r2
          | _ => none
      else if fid = 2 then
        if ft = TType.STRING then
          match r with
          | Tok.strV s :: Tok.fieldEnd :: r2 =>
            LogEntry.readFields fuel { acc with message := some s } r2
          | _ => none
        else
          match skipVal fuel ft r with
          | some (Tok.fieldEnd :: r2) => LogEntry.readFields fuel acc r2
          | _ => none
      else
        match skipVal fuel ft r with
        | some (Tok.fieldEnd :: r2) => LogEntry.readFields fuel acc r2
        | _ => none
    | _ => none

/-- Modelled from the spec: `LogEntry.read` starts from a freshly
constructed entry (both fields `None`) and runs the field loop. -/
def LogEntry.read (fuel : Nat) (toks : List Tok) : Option (LogEntry × List Tok) :=
  match toks with
  | Tok.structBegin :: r => LogEntry.readFields fuel { category := none, message := none } r
  | _ => none

/-- `Log_args` (scribe.py lines 116-183): the argument struct of the `Log`
call, sole field id 1 `messages : list<LogEntry>`. -/
structure Log_args where
  messages : Option (List LogEntry)
deriving DecidableEq

/-- The token run emitted for the `messages` field by `Log_args.write`
(scribe.py lines 160-166): field header, list header `(STRUCT, length)`,
each entry in order, list end, field end. -/
def argsMessagesField (msgs : List LogEntry) : List Tok :=
  Tok.fieldBegin TType.LIST 1 :: Tok.listBegin TType.STRUCT msgs.length ::
    ((msgs.map LogEntry.write).flatten ++ [Tok.listEnd, Tok.fieldEnd])

/-- `Log_args.write` (scribe.py lines 155-168): write the `messages` field
if present (omitted when `None`), then the stop marker. -/
def Log_args.write (a : Log_args) : List Tok :=
  Tok.structBegin ::
    ((match a.messages with
      | some msgs => argsMessagesField msgs
      | none => []) ++
     [Tok.fieldStop, Tok.structEnd])

/-- The element loop of `Log_args.read` (scribe.py lines 142-147): read
exactly `size` `LogEntry` structs, in order. -/
def readEntries (fuel : Nat) : Nat → List Tok → Option (List LogEntry × List Tok)
  | 0, toks => some ([], toks)
  | n + 1, toks =>
    match LogEntry.read fuel toks with
    | some (e, r) =>
      match readEntries fuel n r with
      | some (es, r2) => some (e :: es, r2)
      | none => none
    | none => none

/-- The field loop of `Log_args.read` (scribe.py lines 134-153): field id 1
of list type reads the declared number of `LogEntry` elements into
`messages` (the declared element type is ignored, as in the source);
any other field id, or field id 1 with a non-list type tag, is skipped. -/
def Log_args.readFields : Nat → Log_args → List Tok → Option (Log_args × List Tok)
  | 0, _, _ => none
  | fuel + 1, acc, toks =>
    match toks with
    | Tok.fieldStop :: Tok.structEnd :: r => some (acc, r)
    | Tok.fieldBegin ft fid :: r =>
      if fid = 1 then
        if ft = TType.LIST then
          match r with
          | Tok.listBegin _ n :: r2 =>
            match readEntries fuel n r2 with
            | some (es, Tok.listEnd :: Tok.fieldEnd :: r3) =>
              Log_args.readFields fuel { messages := some es } r3
            | _ => none
          | _ => none
        else
          match skipVal fuel ft r with
          | some (Tok.fieldEnd :: r2) => Log_args.readFields fuel acc r2
          | _ => none
      else
        match skipVal fuel ft r with
        | some (Tok.fieldEnd :: r2) => Log_args.readFields fuel acc r2
        | _ => none
    | _ => none

/-- `Log_args.read` (scribe.py lines 130-153), starting from a freshly
constructed `Log_args()` whose `messages` is `None`. -/
def Log_args.read (fuel : Nat) (toks : List Tok) : Option (Log_args × List Tok) :=
  match toks with
  | Tok.structBegin :: r => Log_args.readFields fuel { messages := none } r
  | _ => none

/-- `Log_result` (scribe.py lines 185-242): the reply struct of the `Log`
call, sole field id 0 `success : i32`, optional. -/
structure Log_result where
  success : Option Int
deriving DecidableEq

/-- `Log_result.write` (scribe.py lines 217-227): write the `success` field
if present (omitted when `None`), then the stop marker. -/
def Log_result.write (res : Log_result) : List Tok :=
  Tok.structBegin ::
    ((match res.success with
      | some v => [Tok.fieldBegin TType.I32 0, Tok.i32V v, Tok.fieldEnd]
      | none => []) ++
     [Tok.fieldStop, Tok.structEnd])

/-- The field loop of `Log_result.read` (scribe.py lines 202-215): field
id 0 of i32 type sets `success`; any other field id, or field id 0 with a
non-i32 type tag, is skipped. -/
def Log_result.readFields : Nat → Log_result → List Tok → Option (Log_result × List Tok)
  | 0, _, _ => none
  | fuel + 1, acc, toks =>
    match toks with
    | Tok.fieldStop :: Tok.structEnd :: r => some (acc, r)
    | Tok.fieldBegin ft fid :: r =>
      if fid = 0 then
        if ft = TType.I32 then
          match r with
          | Tok.i32V v :: Tok.fieldEnd :: r2 =>
            Log_result.readFields fuel { success := some v } r2
          | _ => none
        else
          match skipVal fuel ft r with
          | some (Tok.fieldEnd :: r2) => Log_result.readFields fuel acc r2
          | _ => none
      else
        match skipVal fuel ft r with
        | some (Tok.fieldEnd :: r2) => Log_result.readFields fuel acc r2
        | _ => none
    | _ => none

/-- `Log_result.read` (scribe.py lines 198-215), starting from a freshly
constructed `Log_result()` whose `success` is `None`. -/
def Log_result.read (fuel : Nat) (toks : List Tok) : Option (Log_result × List Tok) :=
  match toks with
  | Tok.structBegin :: r => Log_result.readFields fuel { success := none } r
  | _ => none

/-- Modelled from the spec: thrift's `TApplicationException` (library code,
absent from `src/`).  The spec describes it as a structured application
exception `(errorCode: i32, message: string)`; on the wire it is a struct
with field id 1 `message : string` and field id 2 `errorCode : i32`. -/
structure TApplicationException where
  message : Option String
  errorCode : Option Int
deriving DecidableEq

/-- The thrift library constant `TApplicationException.MISSING_RESULT`. -/
def TApplicationException.MISSING_RESULT : Int := 5

/-- The exception constructed by `recv_Log` when the reply struct carries no
result: `TApplicationException(MISSING_RESULT, "Log failed: unknown result")`
(scribe.py line 72). -/
def TApplicationException.missingResult : TApplicationException :=
  { message := some "Log failed: unknown result"
    errorCode := some TApplicationException.MISSING_RESULT }

/-- Modelled from the spec: the field loop of `TApplicationException.read`:
field id 1 of string type sets `message`, field id 2 of i32 type sets
`errorCode`, anything else is skipped. -/
def TApplicationException.readFields :
    Nat → TApplicationException → List Tok → Option (TApplicationException × List Tok)
  | 0, _, _ => none
  | fuel + 1, acc, toks =>
    match toks with
    | Tok.fieldStop :: Tok.structEnd :: r => some (acc, r)
    | Tok.fieldBegin ft fid :: r =>
      if fid = 1 then
        if ft = TType.STRING then
          match r with
          | Tok.strV s :: Tok.fieldEnd :: r2 =>
            TApplicationException.readFields fuel { acc with message := some s } r2
          | _ => none
        else
          match skipVal fuel ft r with
          | some (Tok.fieldEnd :: r2) => TApplicationException.readFields fuel acc r2
          | _ => none
      else if fid = 2 then
        if ft = TType.I32 then
          match r with
          | Tok.i32V v :: Tok.fieldEnd :: r2 =>
            TApplicationException.readFields fuel { acc with errorCode := some v } r2
          | _ => none
        else
          match skipVal fuel ft r with
          | some (Tok.fieldEnd :: r2) => TApplicationException.readFields fuel acc r2
          | _ => none
      else
        match skipVal fuel ft r with
        | some (Tok.fieldEnd :: r2) => TApplicationException.readFields fuel acc r2
        | _ => none
    | _ => none

/-- Modelled from the spec: `TApplicationException.read`, starting from a
freshly constructed exception (both fields `None`). -/
def TApplicationException.read (fuel : Nat) (toks : List Tok) :
    Option (TApplicationException × List Tok) :=
  match toks with
  | Tok.structBegin :: r =>
    TApplicationException.readFields fuel { message := none, errorCode := none } r
  | _ => none

/-- State of the generated thrift `Client` (scribe.py lines 32-72):
`_seqid` and the pending-request map `_reqs` (sequence id to Deferred).
Deferreds are identified by the ghost counter `nextD`; `allocated` is the
ghost list of every sequence id ever allocated, in allocation order, and
`sent` is the ghost list of message headers and argument tokens written by
`send_Log`. -/
structure ClientState where
  seqid : Int
  reqs : List (Int × Nat)
  nextD : Nat
  allocated : List Int
  sent : List (Nat × Int × List Tok)
deriving DecidableEq

/-- A fresh `Client` (scribe.py lines 35-39): `_seqid = 0`, `_reqs = {}`. -/
def ClientState.init : ClientState :=
  { seqid := 0, reqs := [], nextD := 0, allocated := [], sent := [] }

/-- `Client.Log` (scribe.py lines 41-58): increment `_seqid`, register a new
Deferred under the new sequence id, write the `CALL` envelope and the
argument struct via `send_Log`, and return the Deferred.  The returned pair
carries the allocated sequence id and the Deferred id. -/
def Client.Log (s : ClientState) (messages : List LogEntry) : ClientState × Int × Nat :=
  ({ seqid := s.seqid + 1
     reqs := (s.seqid + 1, s.nextD) :: s.reqs
     nextD := s.nextD + 1
     allocated := s.allocated ++ [s.seqid + 1]
     sent := s.sent ++
       [(TMessageType.CALL, s.seqid + 1, Log_args.write { messages := some messages })] },
   s.seqid + 1, s.nextD)

/-- Removal of a key from the pending-request dict (`self._reqs.pop`). -/
def eraseSeq (reqs : List (Int × Nat)) (k : Int) : List (Int × Nat) :=
  reqs.filter (fun p => p.1 != k)

/-- Observable effect of one `recv_Log` run on the matched Deferred. -/
inductive RecvOutcome where
  | keyError : RecvOutcome
  | decodeFailed : RecvOutcome
  | callback (d : Nat) (v : Int) : RecvOutcome
  | errback (d : Nat) (x : TApplicationException) : RecvOutcome
deriving DecidableEq

/-- The branch of `recv_Log` after the pop (scribe.py lines 62-72): on an
`EXCEPTION` message decode a `TApplicationException` and errback it; on any
other kind decode `Log_result` and either callback its `success` value or
errback the missing-result exception when `success` is `None`.
`decodeFailed` stands for a malformed token stream, on which the python
reader would raise mid-decode. -/
def Client.recvOutcome (fuel : Nat) (mtype : Nat) (d : Nat) (toks : List Tok) : RecvOutcome :=
  if mtype = TMessageType.EXCEPTION then
    match TApplicationException.read fuel toks with
    | some (x, _) => RecvOutcome.errback d x
    | none => RecvOutcome.decodeFailed
  else
    match Log_result.read fuel toks with
    | some (result, _) =>
      match result.success with
      | some v => RecvOutcome.callback d v
      | none => RecvOutcome.errback d TApplicationException.missingResult
    | none => RecvOutcome.decodeFailed

/-- `Client.recv_Log` (scribe.py lines 60-72): `d = self._reqs.pop(rseqid)`
raises `KeyError` when the sequence id is unmatched (modelled by the
`keyError` outcome, the map left as is); otherwise the entry is removed
and the message is dispatched on `d` per `recvOutcome`. -/
def Client.recv_Log (fuel : Nat) (reqs : List (Int × Nat)) (mtype : Nat) (rseqid : Int)
    (toks : List Tok) : List (Int × Nat) × RecvOutcome :=
  match List.lookup rseqid reqs with
  | none => (reqs, RecvOutcome.keyError)
  | some d => (eraseSeq reqs rseqid, Client.recvOutcome fuel mtype d toks)

/-- Events driving a thrift `Client`: an outbound `Log` call, or processing
of one inbound message. -/
inductive CEvent where
  | logCall (messages : List LogEntry) : CEvent
  | recvReply (fuel : Nat) (mtype : Nat) (rseqid : Int) (toks : List Tok) : CEvent
deriving DecidableEq

/-- One event applied to the `Client` state. -/
def cstep (s : ClientState) : CEvent → ClientState
  | CEvent.logCall msgs => (Client.Log s msgs).1
  | CEvent.recvReply fuel mtype rseqid toks =>
    { s with reqs := (Client.recv_Log fuel s.reqs mtype rseqid toks).1 }

/-- The `Client` state reached from a fresh client by a list of events. -/
def crun (evs : List CEvent) : ClientState :=
  evs.foldl cstep ClientState.init

/-- Connection lifecycle states of `ScribeClient`
(scribe_logging_client.py line 66 and lines 81-116). -/
inductive ConnState where
  | NOT_CONNECTED : ConnState
  | CONNECTING : ConnState
  | CONNECTED : ConnState
deriving DecidableEq

/-- State of a `ScribeClient` (scribe_logging_client.py lines 61-116):
`_state`, `_client` and the waiter queue `_waiting`.  Waiter Deferreds are
identified by the ghost counter `nextWaiter`; `connects` counts the
`endpoint.connect` calls issued, `resolved` logs every waiter callback as a
`(waiter, connection)` pair in firing order, and `rejected` logs every
waiter errback. -/
structure ScribeState where
  st : ConnState
  client : Option Nat
  waiting : List Nat
  nextWaiter : Nat
  connects : Nat
  resolved : List (Nat × Nat)
  rejected : List Nat
deriving DecidableEq

/-- A fresh `ScribeClient` (scribe_logging_client.py lines 66-74):
`_state = NOT_CONNECTED`, `_client = None`, `_waiting = []`. -/
def ScribeState.init : ScribeState :=
  { st := ConnState.NOT_CONNECTED, client := none, waiting := [], nextWaiter := 0,
    connects := 0, resolved := [], rejected := [] }

/-- `ScribeClient._get_client` (lines 107-116).  `NOT_CONNECTED`: transition
to `CONNECTING` and issue the single `endpoint.connect` (the caller gets the
connect Deferred itself).  `CONNECTING`: `_notify_connected` (lines 76-79)
appends one fresh Deferred to `_waiting` and returns it.  `CONNECTED`:
return `succeed(_client)`, no state change. -/
def ScribeClient.getClientStep (s : ScribeState) : ScribeState :=
  match s.st with
  | ConnState.NOT_CONNECTED =>
    { s with st := ConnState.CONNECTING, connects := s.connects + 1 }
  | ConnState.CONNECTING =>
    { s with waiting := s.waiting ++ [s.nextWaiter], nextWaiter := s.nextWaiter + 1 }
  | ConnState.CONNECTED => s

/-- `ScribeClient._connection_made` (lines 81-87): transition to
`CONNECTED`, store the connection, then pop every queued waiter from the
front and fire it with that same connection. -/
def ScribeClient.connectionMadeStep (s : ScribeState) (conn : Nat) : ScribeState :=
  { s with st := ConnState.CONNECTED, client := some conn,
           resolved := s.resolved ++ s.waiting.map (fun w => (w, conn)),
           waiting := [] }

/-- `ScribeClient._connection_failed` (lines 98-105): transition to
`NOT_CONNECTED` and clear `_client`.  The waiter queue is not touched and
no waiter is errbacked (the remaining statements only emit a diagnostic). -/
def ScribeClient.connectionFailedStep (s : ScribeState) : ScribeState :=
  { s with st := ConnState.NOT_CONNECTED, client := none }

/-- `ScribeClient._connection_lost` (lines 89-96): transition to
`NOT_CONNECTED` and clear `_client`. -/
def ScribeClient.connectionLostStep (s : ScribeState) : ScribeState :=
  { s with st := ConnState.NOT_CONNECTED, client := none }

/-- Events driving a `ScribeClient`: a `_get_client` call (also issued by
`log`), and the transport callbacks.  `connectionMade`/`connectionFailed`
fire as callbacks of the one in-flight connect Deferred, so only while
`CONNECTING`; `connectionLost` fires on an established connection only. -/
inductive SEvent where
  | getClient : SEvent
  | connectionMade (conn : Nat) : SEvent
  | connectionFailed : SEvent
  | connectionLost : SEvent
deriving DecidableEq

/-- One event applied to the `ScribeClient` state; events that cannot occur
in the current state (per the Twisted callback discipline) are no-ops. -/
def sstep (s : ScribeState) : SEvent → ScribeState
  | SEvent.getClient => ScribeClient.getClientStep s
  | SEvent.connectionMade conn =>
    if s.st = ConnState.CONNECTING then ScribeClient.connectionMadeStep s conn else s
  | SEvent.connectionFailed =>
    if s.st = ConnState.CONNECTING then ScribeClient.connectionFailedStep s else s
  | SEvent.connectionLost =>
    if s.st = ConnState.CONNECTED then ScribeClient.connectionLostStep s else s

/-- The `ScribeClient` state reached from `s` by a list of events. -/
def srun (s : ScribeState) (evs : List SEvent) : ScribeState :=
  evs.foldl sstep s

/-- The `messages` argument of `ScribeClient.log` (line 118): either a
single string (`basestring`) or a batch. -/
inductive Messages where
  | single (s : String) : Messages
  | batch (l : List String) : Messages
deriving DecidableEq

/-- The normalization at the top of `ScribeClient.log` (lines 119-120): a
single string becomes a one-element batch. -/
def ScribeClient.normalizeMessages : Messages → List String
  | Messages.single s => [s]
  | Messages.batch l => l

/-- The entry list built by `ScribeClient.log` (line 122):
`[ttypes.LogEntry(category, message) for message in messages]`. -/
def ScribeClient.logEntriesOf (category : String) (m : Messages) : List LogEntry :=
  (ScribeClient.normalizeMessages m).map (fun msg => { category := some category, message := some msg })

/-- `ScribeClient.log` (lines 118-129): normalize the messages, build the
entries, then call `_get_client` and chain `client.client.Log(entries)` on
its Deferred.  The result is the state after `_get_client` together with
the entry batch the chained call will send. -/
def ScribeClient.logStep (s : ScribeState) (category : String) (m : Messages) :
    ScribeState × List LogEntry :=
  (ScribeClient.getClientStep s, ScribeClient.logEntriesOf category m)

/-- The list of `n` fresh waiter ids starting at `a`. -/
def idRange (a : Nat) : Nat → List Nat
  | 0 => []
  | n + 1 => a :: idRange (a + 1) n

theorem logEntry_read_write (e : LogEntry) (rest : List Tok) (f : Nat) :
    LogEntry.read (f + 3) (e.write ++ rest) = some (e, rest) := by
  obtain ⟨c, m⟩ := e
  cases c <;> cases m <;>
    simp [LogEntry.write, LogEntry.read, LogEntry.readFields]

theorem readEntries_write (msgs : List LogEntry) (rest : List Tok) (f : Nat) :
    readEntries (f + 3) msgs.length ((msgs.map LogEntry.write).flatten ++ rest) =
      some (msgs, rest) := by
  induction msgs generalizing rest with
  | nil => simp [readEntries]
  | cons e t ih =>
    simp [readEntries, List.append_assoc, logEntry_read_write, ih]

theorem log_args_read_write (msgs : List LogEntry) (rest : List Tok) (f : Nat) :
    Log_args.read (f + 4) (Log_args.write { messages := some msgs } ++ rest) =
      some ({ messages := some msgs }, rest) := by
  simp [Log_args.write, argsMessagesField, Log_args.read, Log_args.readFields,
    List.append_assoc, readEntries_write]

theorem log_result_read_write (res : Log_result) (rest : List Tok) (f : Nat) :
    Log_result.read (f + 2) (res.write ++ rest) = some (res, rest) := by
  obtain ⟨v⟩ := res
  cases v <;> simp [Log_result.write, Log_result.read, Log_result.readFields]

mutual

/-- A well-formed wire value of a given thrift type tag, per the spec's
struct-encoding rule: primitives are one value token, a struct is a
stop-terminated field sequence, a list is a counted element sequence. -/
inductive IsValue : Nat → List Tok → Prop where
  | boolV (b : Bool) : IsValue TType.BOOL [Tok.boolV b]
  | i32V (v : Int) : IsValue TType.I32 [Tok.i32V v]
  | strV (s : String) : IsValue TType.STRING [Tok.strV s]
  | structV (pre : List Tok) : IsFieldSeq pre →
      IsValue TType.STRUCT (Tok.structBegin :: pre ++ [Tok.fieldStop, Tok.structEnd])
  | listV (et n : Nat) (pre : List Tok) : IsElemSeq et n pre →
      IsValue TType.LIST (Tok.listBegin et n :: pre ++ [Tok.listEnd])

/-- A well-formed run of encoded struct fields (without the stop marker). -/
inductive IsFieldSeq : List Tok → Prop where
  | nil : IsFieldSeq []
  | cons (ft fid : Nat) (pv pre : List Tok) : IsValue ft pv → IsFieldSeq pre →
      IsFieldSeq (Tok.fieldBegin ft fid :: pv ++ Tok.fieldEnd :: pre)

/-- A well-formed run of `n` encoded list elements of element type `et`. -/
inductive IsElemSeq : Nat → Nat → List Tok → Prop where
  | nil (et : Nat) : IsElemSeq et 0 []
  | cons (et n : Nat) (pv pre : List Tok) : IsValue et pv → IsElemSeq et n pre →
      IsElemSeq et (n + 1) (pv ++ pre)

end

theorem isValue_length_pos (ft : Nat) (pre : List Tok) (h : IsValue ft pre) :
    1 ≤ pre.length := by
  cases h <;> simp

theorem skipGo_sound (M : Nat) :
    (∀ ft pre, IsValue ft pre → 2 * pre.length ≤ M →
      ∀ fuel, pre.length < fuel → ∀ rest,
        skipGo fuel (SkipArg.val ft) (pre ++ rest) = some rest) ∧
    (∀ pre, IsFieldSeq pre → 2 * pre.length ≤ M →
      ∀ fuel, pre.length + 2 ≤ fuel → ∀ rest,
        skipGo fuel SkipArg.fields (pre ++ Tok.fieldStop :: Tok.structEnd :: rest) = some rest) ∧
    (∀ et n pre, IsElemSeq et n pre → 2 * pre.length + 1 ≤ M →
      ∀ fuel, pre.length + 2 ≤ fuel → ∀ rest,
        skipGo fuel (SkipArg.elems et n) (pre ++ rest) = some rest) := by
  induction M using Nat.strong_induction_on with
  | _ M ih =>
    refine ⟨?_, ?_, ?_⟩
    · intro ft pre h hm fuel hf rest
      cases fuel with
      | zero => omega
      | succ f =>
        cases h with
        | boolV b =>
          simp [skipGo, TType.BOOL]
        | i32V v =>
          simp [skipGo, TType.BOOL, TType.I32]
        | strV s =>
          simp [skipGo, TType.BOOL, TType.I32, TType.STRING]
        | structV fs hfs =>
          have hlen : 1 ≤ fs.length + 3 := by omega
          have hrec := (ih (2 * fs.length) (by simp at hm ⊢; omega)).2.1 fs hfs le_rfl f
            (by simp at hf; omega) rest
          simpa [skipGo, TType.BOOL, TType.I32, TType.STRING, TType.STRUCT,
            List.append_assoc] using hrec
        | listV et n es hes =>
          have hrec := (ih (2 * es.length + 1) (by simp at hm ⊢; omega)).2.2 et n es hes le_rfl f
            (by simp at hf; omega) (Tok.listEnd :: rest)
          simp [skipGo, TType.BOOL, TType.I32, TType.STRING, TType.STRUCT, TType.LIST,
            List.append_assoc, hrec]
    · intro pre h hm fuel hf rest
      cases fuel with
      | zero => omega
      | succ f =>
        cases h with
        | nil =>
          simp [skipGo]
        | cons ft fid pv pre2 hv hfs =>
          have h1 : 1 ≤ pv.length := isValue_length_pos ft pv hv
          have hrec1 := (ih (2 * pv.length) (by simp at hm ⊢; omega)).1 ft pv hv le_rfl f
            (by simp at hf; omega) (Tok.fieldEnd :: (pre2 ++ Tok.fieldStop :: Tok.structEnd :: rest))
          have hrec2 := (ih (2 * pre2.length) (by simp at hm ⊢; omega)).2.1 pre2 hfs le_rfl f
            (by simp at hf; omega) rest
          simp [skipGo, List.append_assoc, hrec1, hrec2]
    · intro et n pre h hm fuel hf rest
      cases fuel with
      | zero => omega
      | succ f =>
        cases h with
        | nil =>
          simp [skipGo]
        | cons et2 m pv pre2 hv hes =>
          have h1 : 1 ≤ pv.length := isValue_length_pos et pv hv
          have hrec1 := (ih (2 * pv.length) (by simp at hm ⊢; omega)).1 et pv hv le_rfl f
            (by simp at hf; omega) (pre2 ++ rest)
          have hrec2 := (ih (2 * pre2.length + 1) (by simp at hm ⊢; omega)).2.2 et m pre2 hes
            le_rfl f (by simp at hf; omega) rest
          simp [skipGo, List.append_assoc, hrec1, hrec2]

theorem skipVal_isValue (ft : Nat) (pre : List Tok) (h : IsValue ft pre) (fuel : Nat)
    (hf : pre.length < fuel) (rest : List Tok) : skipVal fuel ft (pre ++ rest) = some rest :=
  (skipGo_sound (2 * pre.length)).1 ft pre h le_rfl fuel hf rest

/-- An inbound struct field as it appears on the wire: field id, type tag,
and the encoded value tokens. -/
def encodeField (f : Nat × Nat × List Tok) : List Tok :=
  Tok.fieldBegin f.2.1 f.1 :: (f.2.2 ++ [Tok.fieldEnd])

/-- A run of inbound struct fields, in order. -/
def encodeFields (fs : List (Nat × Nat × List Tok)) : List Tok :=
  (fs.map encodeField).flatten

/-- The effect of one inbound field on the `Log_result` being read: field
id 0 of i32 type overwrites `success`; every other field is ignored. -/
def updResult (acc : Log_result) (f : Nat × Nat × List Tok) : Log_result :=
  if f.1 = 0 ∧ f.2.1 = TType.I32 then
    match f.2.2 with
    | [Tok.i32V v] => { success := some v }
    | _ => acc
  else acc

theorem logResult_readFields_fold (fs : List (Nat × Nat × List Tok)) :
    ∀ (acc : Log_result) (rest : List Tok) (fuel : Nat),
      (∀ f ∈ fs, IsValue f.2.1 f.2.2) →
      (encodeFields fs).length + 2 ≤ fuel →
      Log_result.readFields fuel acc
          (encodeFields fs ++ Tok.fieldStop :: Tok.structEnd :: rest) =
        some (fs.foldl updResult acc, rest) := by
  induction fs with
  | nil =>
    intro acc rest fuel _ hf
    cases fuel with
    | zero => omega
    | succ f => simp [encodeFields, Log_result.readFields]
  | cons fd t ih =>
    intro acc rest fuel hwf hf
    obtain ⟨fid, ft, pv⟩ := fd
    have hv : IsValue ft pv := (hwf _ (List.mem_cons_self _ _))
    have hwt : ∀ f ∈ t, IsValue f.2.1 f.2.2 := fun f hm => hwf _ (List.mem_cons_of_mem _ hm)
    cases fuel with
    | zero => simp [encodeFields, encodeField] at hf
    | succ f =>
      have hlt : (encodeFields t).length + 2 ≤ f := by
        simp [encodeFields, encodeField] at hf ⊢; omega
      by_cases h0 : fid = 0
      · by_cases hI : ft = TType.I32
        · subst h0; subst hI
          cases hv with
          | i32V v =>
            simp [encodeFields, encodeField, List.append_assoc, Log_result.readFields,
              updResult]
            exact ih _ rest f hwt hlt
        · have hrec := skipVal_isValue ft pv hv f
            (by simp [encodeFields, encodeField] at hf; omega)
            (Tok.fieldEnd :: (encodeFields t ++ Tok.fieldStop :: Tok.structEnd :: rest))
          simp only [encodeFields] at hrec
          have hres := ih acc rest f hwt hlt
          simp only [encodeFields] at hres
          simp [encodeFields, encodeField, List.append_assoc, Log_result.readFields,
            h0, hI, hrec, updResult, hres]
      · have hrec := skipVal_isValue ft pv hv f
          (by simp [encodeFields, encodeField] at hf; omega)
          (Tok.fieldEnd :: (encodeFields t ++ Tok.fieldStop :: Tok.structEnd :: rest))
        simp only [encodeFields] at hrec
        have hres := ih acc rest f hwt hlt
        simp only [encodeFields] at hres
        simp [encodeFields, encodeField, List.append_assoc, Log_result.readFields,
          h0, hrec, updResult, hres]

theorem logArgs_readFields_stop (acc : Log_args) (rest : List Tok) (fuel : Nat)
    (hf : 1 ≤ fuel) :
    Log_args.readFields fuel acc (Tok.fieldStop :: Tok.structEnd :: rest) = some (acc, rest) := by
  cases fuel with
  | zero => omega
  | succ f => simp [Log_args.readFields]

theorem logArgs_readFields_junk (js : List (Nat × Nat × List Tok)) :
    ∀ (acc : Log_args) (tail : List Tok) (out : Log_args × List Tok) (F : Nat),
      (∀ f ∈ js, IsValue f.2.1 f.2.2 ∧ ¬(f.1 = 1 ∧ f.2.1 = TType.LIST)) →
      (∀ fuel, F ≤ fuel → Log_args.readFields fuel acc tail = some out) →
      ∀ fuel, (encodeFields js).length + F ≤ fuel →
        Log_args.readFields fuel acc (encodeFields js ++ tail) = some out := by
  induction js with
  | nil =>
    intro acc tail out F _ hk fuel hf
    have : F ≤ fuel := by simp [encodeFields] at hf; omega
    simpa [encodeFields] using hk fuel this
  | cons fd t ih =>
    intro acc tail out F hwf hk fuel hf
    obtain ⟨fid, ft, pv⟩ := fd
    have hv : IsValue ft pv := (hwf _ (List.mem_cons_self _ _)).1
    have hnk := (hwf _ (List.mem_cons_self _ _)).2
    have hwt := fun f hm => hwf f (List.mem_cons_of_mem _ hm)
    cases fuel with
    | zero => simp [encodeFields, encodeField] at hf
    | succ f =>
      have hrec := skipVal_isValue ft pv hv f
        (by simp [encodeFields, encodeField] at hf; omega)
        (Tok.fieldEnd :: (encodeFields t ++ tail))
      have htl : (encodeFields t).length + F ≤ f := by
        simp [encodeFields, encodeField] at hf ⊢; omega
      have hres := ih acc tail out F hwt hk f htl
      simp only [encodeFields] at hrec hres
      by_cases h1 : fid = 1
      · have hL : ¬ ft = TType.LIST := fun h => hnk ⟨h1, h⟩
        simp [encodeFields, encodeField, List.append_assoc, Log_args.readFields,
          h1, hL, hrec, hres]
      · simp [encodeFields, encodeField, List.append_assoc, Log_args.readFields,
          h1, hrec, hres]

theorem logArgs_readFields_msgsField (msgs : List LogEntry) (acc : Log_args)
    (tail : List Tok) (out : Log_args × List Tok) (F : Nat)
    (hk : ∀ fuel, F ≤ fuel → Log_args.readFields fuel { messages := some msgs } tail = some out) :
    ∀ fuel, F + 4 ≤ fuel →
      Log_args.readFields fuel acc (argsMessagesField msgs ++ tail) = some out := by
  intro fuel hf
  cases fuel with
  | zero => omega
  | succ f =>
    have hf3 : f = (f - 3) + 3 := by omega
    have hent := readEntries_write msgs (Tok.listEnd :: Tok.fieldEnd :: tail) (f - 3)
    rw [← hf3] at hent
    simp [argsMessagesField, List.append_assoc, Log_args.readFields, hent]
    exact hk f (by omega)

theorem srun_connecting_getClients (n : Nat) :
    ∀ (s : ScribeState), s.st = ConnState.CONNECTING →
      srun s (List.replicate n SEvent.getClient) =
        { s with waiting := s.waiting ++ idRange s.nextWaiter n,
                 nextWaiter := s.nextWaiter + n } := by
  induction n with
  | zero =>
    intro s _
    simp [srun, idRange]
  | succ n ih =>
    intro s h
    have hstep : sstep s SEvent.getClient =
        { s with waiting := s.waiting ++ [s.nextWaiter], nextWaiter := s.nextWaiter + 1 } := by
      simp [sstep, ScribeClient.getClientStep, h]
    have h2 := ih { s with waiting := s.waiting ++ [s.nextWaiter],
                           nextWaiter := s.nextWaiter + 1 } h
    rw [List.replicate_succ]
    show srun (sstep s SEvent.getClient) (List.replicate n SEvent.getClient) = _
    rw [hstep, h2]
    simp [idRange, List.append_assoc]
    omega

theorem srun_not_connected_burst (n : Nat) (s : ScribeState)
    (h : s.st = ConnState.NOT_CONNECTED) :
    srun s (SEvent.getClient :: List.replicate n SEvent.getClient) =
      { s with st := ConnState.CONNECTING, connects := s.connects + 1,
               waiting := s.waiting ++ idRange s.nextWaiter n,
               nextWaiter := s.nextWaiter + n } := by
  have hstep : sstep s SEvent.getClient =
      { s with st := ConnState.CONNECTING, connects := s.connects + 1 } := by
    simp [sstep, ScribeClient.getClientStep, h]
  have h2 := srun_connecting_getClients n
    { s with st := ConnState.CONNECTING, connects := s.connects + 1 } rfl
  show srun (sstep s SEvent.getClient) (List.replicate n SEvent.getClient) = _
  rw [hstep, h2]

/-- The invariant of claim C10: the stored connection `_client` is non-None
exactly in state `CONNECTED`. -/
def StoredConnInv (s : ScribeState) : Prop :=
  s.client ≠ none ↔ s.st = ConnState.CONNECTED

instance (s : ScribeState) : Decidable (StoredConnInv s) := by
  unfold StoredConnInv; infer_instance

theorem storedConnInv_step (s : ScribeState) (e : SEvent) (h : StoredConnInv s) :
    StoredConnInv (sstep s e) := by
  cases e with
  | getClient =>
    cases hst : s.st with
    | NOT_CONNECTED =>
      have hc : s.client = none := by
        cases hcl : s.client with
        | none => rfl
        | some c =>
          have := h.mp (by simp [hcl])
          rw [hst] at this
          cases this
      simp [sstep, ScribeClient.getClientStep, hst, StoredConnInv, hc]
    | CONNECTING =>
      have hc : s.client = none := by
        cases hcl : s.client with
        | none => rfl
        | some c =>
          have := h.mp (by simp [hcl])
          rw [hst] at this
          cases this
      simp [sstep, ScribeClient.getClientStep, hst, StoredConnInv, hc]
    | CONNECTED =>
      simpa [sstep, ScribeClient.getClientStep, hst, StoredConnInv, hst] using h
  | connectionMade conn =>
    by_cases hst : s.st = ConnState.CONNECTING
    · simp [sstep, ScribeClient.connectionMadeStep, hst, StoredConnInv]
    · simpa [sstep, hst, StoredConnInv] using h
  | connectionFailed =>
    by_cases hst : s.st = ConnState.CONNECTING
    · simp [sstep, ScribeClient.connectionFailedStep, hst, StoredConnInv]
    · simpa [sstep, hst, StoredConnInv] using h
  | connectionLost =>
    by_cases hst : s.st = ConnState.CONNECTED
    · simp [sstep, ScribeClient.connectionLostStep, hst, StoredConnInv]
    · simpa [sstep, hst, StoredConnInv] using h

theorem storedConnInv_init : StoredConnInv ScribeState.init := by
  simp [StoredConnInv, ScribeState.init]

theorem storedConnInv_run (evs : List SEvent) : StoredConnInv (srun ScribeState.init evs) := by
  have main : ∀ (l : List SEvent) (s : ScribeState), StoredConnInv s →
      StoredConnInv (l.foldl sstep s) := by
    intro l
    induction l with
    | nil => intro s hs; exact hs
    | cons e t ih => intro s hs; exact ih _ (storedConnInv_step s e hs)
  exact main evs ScribeState.init storedConnInv_init

/-- The sequence-id invariant of the thrift `Client`: every allocated id is
at most the current `_seqid`, and every pending request key was allocated. -/
def SeqIdInv (s : ClientState) : Prop :=
  (∀ i ∈ s.allocated, i ≤ s.seqid) ∧ (∀ p ∈ s.reqs, p.1 ∈ s.allocated)

theorem seqIdInv_init : SeqIdInv ClientState.init := by
  constructor <;> intro x hx <;> simp [ClientState.init] at hx

theorem recv_reqs_subset (fuel mtype : Nat) (rseqid : Int) (toks : List Tok)
    (reqs : List (Int × Nat)) :
    ∀ p ∈ (Client.recv_Log fuel reqs mtype rseqid toks).1, p ∈ reqs := by
  intro p hp
  unfold Client.recv_Log at hp
  cases h : List.lookup rseqid reqs with
  | none => rw [h] at hp; exact hp
  | some d =>
    rw [h] at hp
    simp only [eraseSeq, List.mem_filter] at hp
    exact hp.1

theorem seqIdInv_step (s : ClientState) (e : CEvent) (h : SeqIdInv s) : SeqIdInv (cstep s e) := by
  obtain ⟨h1, h2⟩ := h
  cases e with
  | logCall msgs =>
    constructor
    · intro i hi
      simp only [cstep, Client.Log, List.mem_append, List.mem_singleton] at hi ⊢
      rcases hi with hi | hi
      · have := h1 i hi; omega
      · omega
    · intro p hp
      simp only [cstep, Client.Log, List.mem_cons] at hp
      simp only [cstep, Client.Log, List.mem_append, List.mem_singleton]
      rcases hp with hp | hp
      · subst hp; simp
      · exact Or.inl (h2 p hp)
  | recvReply fuel mtype rseqid toks =>
    refine ⟨fun i hi => h1 i hi, fun p hp => h2 p ?_⟩
    exact recv_reqs_subset fuel mtype rseqid toks s.reqs p hp

theorem seqIdInv_run (evs : List CEvent) : SeqIdInv (crun evs) := by
  have main : ∀ (l : List CEvent) (s : ClientState), SeqIdInv s →
      SeqIdInv (l.foldl cstep s) := by
    intro l
    induction l with
    | nil => intro s hs; exact hs
    | cons e t ih => intro s hs; exact ih _ (seqIdInv_step s e hs)
  exact main evs ClientState.init seqIdInv_init

theorem lookup_eraseSeq (reqs : List (Int × Nat)) (k : Int) :
    List.lookup k (eraseSeq reqs k) = none := by
  induction reqs with
  | nil => simp [eraseSeq]
  | cons p t ih =>
    by_cases h : p.1 = k
    · simpa [eraseSeq, List.filter_cons, h] using ih
    · have hne : (p.1 != k) = true := by simp [h]
      simp only [eraseSeq, List.filter_cons, hne, if_true]
      obtain ⟨a, b⟩ := p
      simp only at h
      have : (k == a) = false := by simp [Ne.symm h]
      simpa [List.lookup, this, eraseSeq] using ih

theorem recv_removes (fuel mtype : Nat) (reqs : List (Int × Nat)) (rseqid : Int)
    (toks : List Tok) (d : Nat) (h : List.lookup rseqid reqs = some d) :
    (Client.recv_Log fuel reqs mtype rseqid toks).1 = eraseSeq reqs rseqid := by
  simp [Client.recv_Log, h]

/-- Claim C1: for calls arriving while `NOT_CONNECTED` or `CONNECTING`, at
most one connection attempt is in flight.  The first `_get_client` call in
`NOT_CONNECTED` moves the state to `CONNECTING` and issues the single
`endpoint.connect` (`connects` grows by exactly one for the whole burst),
and every call arriving while `CONNECTING` only appends one fresh Deferred
to the waiter queue and returns it, changing nothing else — in particular
never issuing a second connect. -/
theorem c1_single_connect_attempt (s : ScribeState) (n : Nat) :
    (s.st = ConnState.NOT_CONNECTED →
      srun s (SEvent.getClient :: List.replicate n SEvent.getClient) =
        { s with st := ConnState.CONNECTING, connects := s.connects + 1,
                 waiting := s.waiting ++ idRange s.nextWaiter n,
                 nextWaiter := s.nextWaiter + n }) ∧
    (s.st = ConnState.CONNECTING →
      srun s (List.replicate n SEvent.getClient) =
        { s with waiting := s.waiting ++ idRange s.nextWaiter n,
                 nextWaiter := s.nextWaiter + n }) :=
  ⟨fun h => srun_not_connected_burst n s h, fun h => srun_connecting_getClients n s h⟩

/-- Witness for C1: three concurrent calls from a fresh client issue one
single connect and queue two fresh waiters, in order. -/
theorem c1_single_connect_attempt_witness :
    srun ScribeState.init (SEvent.getClient :: List.replicate 2 SEvent.getClient) =
      { st := ConnState.CONNECTING, client := none, waiting := [0, 1], nextWaiter := 2,
        connects := 1, resolved := [], rejected := [] } := by
  have h := (c1_single_connect_attempt ScribeState.init 2).1 rfl
  rw [h]
  rfl

/-- Claim C2, evaluated at the failing input: two calls arrive while
`NOT_CONNECTED` (the second queues waiter `0`), then the connect attempt
fails.  `_connection_failed` resets the state to `NOT_CONNECTED` and clears
`_client`, but the queued waiter is neither rejected (`rejected = []`) nor
removed: it survives in `_waiting` into the next episode. -/
theorem c2_connect_failure_keeps_waiters :
    srun ScribeState.init [SEvent.getClient, SEvent.getClient, SEvent.connectionFailed] =
      { st := ConnState.NOT_CONNECTED, client := none, waiting := [0], nextWaiter := 1,
        connects := 1, resolved := [], rejected := [] } := by
  rfl

/-- Claim C3, evaluated at the failing input: episode 1 issues a connect and
queues waiter `0`, then fails, carrying waiter `0` over; episode 2 issues a
fresh connect, queues waiter `1`, and succeeds with connection `7`.
`_connection_made` then resolves the carried-over waiter `0` together with
episode 2's waiter `1` in one batch, so a waiter queued during one
`CONNECTING` episode is not resolved when its own episode completes and is
mixed into a later episode's resolutions. -/
theorem c3_cross_episode_resolution :
    srun ScribeState.init
        [SEvent.getClient, SEvent.getClient, SEvent.connectionFailed,
         SEvent.getClient, SEvent.getClient, SEvent.connectionMade 7] =
      { st := ConnState.CONNECTED, client := some 7, waiting := [], nextWaiter := 2,
        connects := 2, resolved := [(0, 7), (1, 7)], rejected := [] } := by
  rfl

/-- Claim C4: for a matched pending call, `recv_Log` errbacks the decoded
application exception on an `EXCEPTION` message; on a `REPLY` it callbacks
the decoded `success` value when present, and when `success` is absent it
errbacks the locally built missing-result exception, which carries the
protocol-error code `MISSING_RESULT` rather than a decoded application
exception. -/
theorem c4_recv_log_dispatch (reqs : List (Int × Nat)) (rseqid : Int) (d : Nat)
    (fuel : Nat) (toks : List Tok) (hd : List.lookup rseqid reqs = some d) :
    (∀ x r2, TApplicationException.read fuel toks = some (x, r2) →
      Client.recv_Log fuel reqs TMessageType.EXCEPTION rseqid toks =
        (eraseSeq reqs rseqid, RecvOutcome.errback d x)) ∧
    (∀ v r2, Log_result.read fuel toks = some ({ success := some v }, r2) →
      Client.recv_Log fuel reqs TMessageType.REPLY rseqid toks =
        (eraseSeq reqs rseqid, RecvOutcome.callback d v)) ∧
    (∀ r2, Log_result.read fuel toks = some ({ success := none }, r2) →
      Client.recv_Log fuel reqs TMessageType.REPLY rseqid toks =
        (eraseSeq reqs rseqid, RecvOutcome.errback d TApplicationException.missingResult) ∧
      TApplicationException.missingResult.errorCode =
        some TApplicationException.MISSING_RESULT) := by
  refine ⟨?_, ?_, ?_⟩
  · intro x r2 hx
    simp [Client.recv_Log, hd, Client.recvOutcome, TMessageType.EXCEPTION, hx]
  · intro v r2 hv
    simp [Client.recv_Log, hd, Client.recvOutcome, TMessageType.REPLY,
      TMessageType.EXCEPTION, hv]
  · intro r2 hv
    refine ⟨?_, rfl⟩
    simp [Client.recv_Log, hd, Client.recvOutcome, TMessageType.REPLY,
      TMessageType.EXCEPTION, hv]

/-- Witness for C4 at concrete inputs: one pending call `(1, 5)`; an
exception message, a reply carrying `success = 0`, and a reply with the
`success` field absent. -/
theorem c4_recv_log_dispatch_witness :
    Client.recv_Log 9 [(1, 5)] TMessageType.EXCEPTION 1
        [Tok.structBegin, Tok.fieldBegin TType.STRING 1, Tok.strV "boom", Tok.fieldEnd,
         Tok.fieldBegin TType.I32 2, Tok.i32V 7, Tok.fieldEnd, Tok.fieldStop, Tok.structEnd] =
      (eraseSeq [(1, 5)] 1,
        RecvOutcome.errback 5 { message := some "boom", errorCode := some 7 }) ∧
    Client.recv_Log 9 [(1, 5)] TMessageType.REPLY 1 (Log_result.write { success := some 0 }) =
      (eraseSeq [(1, 5)] 1, RecvOutcome.callback 5 0) ∧
    Client.recv_Log 9 [(1, 5)] TMessageType.REPLY 1 (Log_result.write { success := none }) =
      (eraseSeq [(1, 5)] 1, RecvOutcome.errback 5 TApplicationException.missingResult) := by
  refine ⟨?_, ?_, ?_⟩
  · exact (c4_recv_log_dispatch [(1, 5)] 1 5 9 _ (by decide)).1
      { message := some "boom", errorCode := some 7 } [] (by decide)
  · exact (c4_recv_log_dispatch [(1, 5)] 1 5 9 _ (by decide)).2.1 0 [] (by decide)
  · exact ((c4_recv_log_dispatch [(1, 5)] 1 5 9 _ (by decide)).2.2 [] (by decide)).1

/-- Claim C5: an inbound message whose sequence id has no pending entry:
`self._reqs.pop(rseqid)` raises `KeyError` (the `keyError` outcome), so the
message is never consumed as a silent success — processing it is never a
no-op. -/
theorem c5_unmatched_seqid_fails (fuel mtype : Nat) (reqs : List (Int × Nat)) (rseqid : Int)
    (toks : List Tok) (h : List.lookup rseqid reqs = none) :
    Client.recv_Log fuel reqs mtype rseqid toks = (reqs, RecvOutcome.keyError) ∧
    (∀ d v, (Client.recv_Log fuel reqs mtype rseqid toks).2 ≠ RecvOutcome.callback d v) := by
  have heq : Client.recv_Log fuel reqs mtype rseqid toks = (reqs, RecvOutcome.keyError) := by
    simp [Client.recv_Log, h]
  refine ⟨heq, fun d v => ?_⟩
  rw [heq]
  simp

/-- Witness for C5: an empty pending map and sequence id 1. -/
theorem c5_unmatched_seqid_fails_witness :
    Client.recv_Log 4 [] TMessageType.REPLY 1 [] = ([], RecvOutcome.keyError) :=
  (c5_unmatched_seqid_fails 4 TMessageType.REPLY [] 1 [] (by decide)).1

/-- Claim C6: `Log_args` round-trips through `write` then `read` for every
batch of entries, field for field, and the empty batch encodes to a valid,
decodable empty-list struct that decodes back to the empty list. -/
theorem c6_log_args_roundtrip (msgs : List LogEntry) (rest : List Tok) (fuel : Nat) :
    Log_args.read (fuel + 4) (Log_args.write { messages := some msgs } ++ rest) =
      some ({ messages := some msgs }, rest) ∧
    Log_args.read 4 (Log_args.write { messages := some [] }) =
      some ({ messages := some [] }, []) := by
  refine ⟨log_args_read_write msgs rest fuel, ?_⟩
  have h := log_args_read_write [] [] 0
  simpa using h

/-- Claim C7: decoding never aborts on well-formed unknown fields.  First,
`Log_result.read` over an arbitrary run of well-formed inbound fields
decodes to the fold of the known-field updates (unknown ids and
type-mismatched tags leave the struct as is and are skipped).  Second,
`Log_args.read` decodes the `messages` field correctly even when runs of
unknown (or type-mismatched) fields surround it. -/
theorem c7_unknown_fields_skipped
    (fs : List (Nat × Nat × List Tok)) (hfs : ∀ f ∈ fs, IsValue f.2.1 f.2.2)
    (fuelR : Nat) (hfR : (encodeFields fs).length + 2 ≤ fuelR)
    (js1 js2 : List (Nat × Nat × List Tok)) (msgs : List LogEntry)
    (hj1 : ∀ f ∈ js1, IsValue f.2.1 f.2.2 ∧ ¬(f.1 = 1 ∧ f.2.1 = TType.LIST))
    (hj2 : ∀ f ∈ js2, IsValue f.2.1 f.2.2 ∧ ¬(f.1 = 1 ∧ f.2.1 = TType.LIST))
    (fuelA : Nat)
    (hfA : (encodeFields js1).length + (encodeFields js2).length + 5 ≤ fuelA)
    (rest : List Tok) :
    Log_result.read fuelR
        (Tok.structBegin :: (encodeFields fs ++ Tok.fieldStop :: Tok.structEnd :: rest)) =
      some (fs.foldl updResult { success := none }, rest) ∧
    Log_args.read fuelA
        (Tok.structBegin :: (encodeFields js1 ++ (argsMessagesField msgs ++
          (encodeFields js2 ++ Tok.fieldStop :: Tok.structEnd :: rest)))) =
      some ({ messages := some msgs }, rest) := by
  constructor
  · have h := logResult_readFields_fold fs { success := none } rest fuelR hfs hfR
    simpa [Log_result.read] using h
  · have hstop : ∀ fuel, 1 ≤ fuel →
        Log_args.readFields fuel { messages := some msgs }
          (Tok.fieldStop :: Tok.structEnd :: rest) = some ({ messages := some msgs }, rest) :=
      fun fuel hf => logArgs_readFields_stop _ rest fuel hf
    have hj2run := logArgs_readFields_junk js2 { messages := some msgs }
      (Tok.fieldStop :: Tok.structEnd :: rest) ({ messages := some msgs }, rest) 1 hj2 hstop
    have hmsgs := logArgs_readFields_msgsField msgs { messages := none }
      (encodeFields js2 ++ Tok.fieldStop :: Tok.structEnd :: rest)
      ({ messages := some msgs }, rest) ((encodeFields js2).length + 1) hj2run
    have hall := logArgs_readFields_junk js1 { messages := none }
      (argsMessagesField msgs ++ (encodeFields js2 ++ Tok.fieldStop :: Tok.structEnd :: rest))
      ({ messages := some msgs }, rest) ((encodeFields js2).length + 1 + 4) hj1 hmsgs
      fuelA (by omega)
    simpa [Log_args.read] using hall

/-- Witness for C7 at concrete inputs: a `Log_result` struct carrying an
unknown string field 5 before the genuine `success` field, and a `Log_args`
struct whose `messages` field is surrounded by an unknown i32 field 2 and a
field with the known id 1 but a mismatched (string) type tag. -/
theorem c7_unknown_fields_skipped_witness :
    Log_result.read 10
        (Tok.structBegin :: (encodeFields [(5, TType.STRING, [Tok.strV "x"]),
          (0, TType.I32, [Tok.i32V 9])] ++ Tok.fieldStop :: Tok.structEnd :: [])) =
      some ({ success := some 9 }, []) ∧
    Log_args.read 20
        (Tok.structBegin :: (encodeFields [(2, TType.I32, [Tok.i32V 3])] ++
          (argsMessagesField [{ category := some "app", message := some "hello" }] ++
            (encodeFields [(1, TType.STRING, [Tok.strV "y"])] ++
              Tok.fieldStop :: Tok.structEnd :: [])))) =
      some ({ messages := some [{ category := some "app", message := some "hello" }] }, []) := by
  have h := c7_unknown_fields_skipped
    [(5, TType.STRING, [Tok.strV "x"]), (0, TType.I32, [Tok.i32V 9])]
    (by
      intro f hf
      simp only [List.mem_cons, List.not_mem_nil, or_false] at hf
      rcases hf with rfl | rfl
      · exact IsValue.strV "x"
      · exact IsValue.i32V 9)
    10 (by decide)
    [(2, TType.I32, [Tok.i32V 3])] [(1, TType.STRING, [Tok.strV "y"])]
    [{ category := some "app", message := some "hello" }]
    (by
      intro f hf
      simp only [List.mem_cons, List.not_mem_nil, or_false] at hf
      subst hf
      exact ⟨IsValue.i32V 3, by decide⟩)
    (by
      intro f hf
      simp only [List.mem_cons, List.not_mem_nil, or_false] at hf
      subst hf
      exact ⟨IsValue.strV "y", by decide⟩)
    20 (by decide) []
  exact ⟨h.1.trans (by decide), h.2⟩

/-- Claim C8: in every reachable `Client` state, `Log` allocates
`_seqid + 1`, which is strictly greater than every previously allocated
sequence id (strict monotonicity, hence no reuse) and in particular differs
from the key of every pending (unresolved) call; and processing a matched
reply removes the pending call from `_reqs` at that instant, for every
message kind. -/
theorem c8_seqid_monotonic_and_removal (evs : List CEvent) (msgs : List LogEntry) :
    ((Client.Log (crun evs) msgs).2.1 = (crun evs).seqid + 1) ∧
    (∀ i ∈ (crun evs).allocated, i < (Client.Log (crun evs) msgs).2.1) ∧
    (∀ p ∈ (crun evs).reqs, p.1 ≠ (Client.Log (crun evs) msgs).2.1) ∧
    (∀ (fuel mtype : Nat) (rseqid : Int) (toks : List Tok) (d : Nat),
      List.lookup rseqid (crun evs).reqs = some d →
      (Client.recv_Log fuel (crun evs).reqs mtype rseqid toks).1 =
        eraseSeq (crun evs).reqs rseqid ∧
      List.lookup rseqid (Client.recv_Log fuel (crun evs).reqs mtype rseqid toks).1 = none) := by
  obtain ⟨h1, h2⟩ := seqIdInv_run evs
  refine ⟨rfl, ?_, ?_, ?_⟩
  · intro i hi
    have := h1 i hi
    simp only [Client.Log]
    omega
  · intro p hp
    have := h1 p.1 (h2 p hp)
    simp only [Client.Log]
    omega
  · intro fuel mtype rseqid toks d hd
    have hrm := recv_removes fuel mtype (crun evs).reqs rseqid toks d hd
    exact ⟨hrm, by rw [hrm]; exact lookup_eraseSeq _ _⟩

/-- Witness for C8: after one `Log` call the allocated id 1 is below the
next allocation, and processing its reply empties the pending map. -/
theorem c8_seqid_monotonic_and_removal_witness :
    (1 : Int) < (Client.Log (crun [CEvent.logCall []]) []).2.1 ∧
    (Client.recv_Log 9 (crun [CEvent.logCall []]).reqs TMessageType.REPLY 1
        (Log_result.write { success := some 0 })).1 =
      eraseSeq (crun [CEvent.logCall []]).reqs 1 ∧
    List.lookup (1 : Int) (Client.recv_Log 9 (crun [CEvent.logCall []]).reqs
        TMessageType.REPLY 1 (Log_result.write { success := some 0 })).1 = none := by
  have h := c8_seqid_monotonic_and_removal [CEvent.logCall []] []
  have hr := h.2.2.2 9 TMessageType.REPLY 1 (Log_result.write { success := some 0 }) 0 (by decide)
  exact ⟨h.2.1 1 (by decide), hr.1, hr.2⟩

/-- Claim C9: logging a single string is the same operation as logging the
one-element batch: the normalization happens at the `log()` boundary, both
produce the identical single-element `LogEntry` list, and the state-machine
effect is the plain `_get_client` step either way. -/
theorem c9_single_string_normalization (s : ScribeState) (cat x : String) :
    ScribeClient.logStep s cat (Messages.single x) =
      ScribeClient.logStep s cat (Messages.batch [x]) ∧
    (ScribeClient.logStep s cat (Messages.single x)).2 =
      [{ category := some cat, message := some x }] ∧
    (ScribeClient.logStep s cat (Messages.single x)).1 = ScribeClient.getClientStep s :=
  ⟨rfl, rfl, rfl⟩

/-- Claim C10: a fresh `ScribeClient` satisfies, and every operation
(`_get_client`, `_connection_made`, `_connection_lost`,
`_connection_failed`) preserves, the invariant that the stored `_client` is
non-None exactly when `_state` is `CONNECTED`; hence it holds in every
reachable state, and in `NOT_CONNECTED` and `CONNECTING` the stored
connection is always `None`. -/
theorem c10_stored_client_invariant :
    StoredConnInv ScribeState.init ∧
    (∀ (s : ScribeState) (e : SEvent), StoredConnInv s → StoredConnInv (sstep s e)) ∧
    (∀ evs : List SEvent, StoredConnInv (srun ScribeState.init evs)) :=
  ⟨storedConnInv_init, storedConnInv_step, storedConnInv_run⟩

/-- Witness for C10: losing an established connection from a concrete
`CONNECTED` state preserves the invariant. -/
theorem c10_stored_client_invariant_witness :
    StoredConnInv (sstep
      { st := ConnState.CONNECTED, client := some 3, waiting := [], nextWaiter := 0,
        connects := 1, resolved := [], rejected := [] }
      SEvent.connectionLost) :=
  c10_stored_client_invariant.2.1 _ SEvent.connectionLost (by decide)
